import Mathlib

/-!
# Verification of the BlessedNotebook ordering / sync engine

Shallow embedding of the core data model and operations of the
BlessedNotebook repository (React + Supabase collaborative to-do lists):

* the entity model (`Notebook`, `Note`, `Task`, `TaskFolder`, completions,
  comments) from `src/hooks/useNotebooks.ts`;
* the drag-reorder index assignment (`arrayMove` from dnd-kit, as used by
  `handleTaskDragEnd` in NoteCard and `handleDragEnd` in NotebookView);
* the optimistic mutations with snapshot/rollback (`reorderNotesMutation`,
  `reorderTasksMutation`, `moveTaskToFolderMutation`);
* completion toggling (`toggleTask`) and the progress computations
  (`calculateNoteProgress`, `calculateProgress`, `calculateGroupAverage`);
* the realtime comment reconciliation of `TaskCommentsPanel`
  (optimistic send, insert echo dedup, delete);
* the join-by-share-code flow of `JoinNotebookDialog`;
* `addTask` index allocation and the `memberCount` computation of
  `fetchNotebooks`.

JavaScript numbers are modelled exactly: list indices and counts as `Nat`,
stored `order_index` values as `Int`; `Math.round` on the (non-negative)
rational `a / b * 100` is `floor(100 a / b + 1/2)`, i.e. the natural number
`(200 a + b) / (2 b)`.
-/

namespace BlessedNotebook

/-! ## Data model (interfaces of `src/hooks/useNotebooks.ts`) -/

/-- `TaskCompletion` from useNotebooks.ts: one completion entry of a task. -/
structure TaskCompletion where
  userId : String
  userName : String
  avatarUrl : Option String
deriving DecidableEq, Repr

/-- `Task` from useNotebooks.ts. -/
structure Task where
  id : String
  title : String
  note_id : String
  folder_id : Option String
  order_index : Int
  created_at : String
  completedBy : List String
  completions : List TaskCompletion
deriving DecidableEq, Repr

/-- `TaskFolder` from useNotebooks.ts. -/
structure TaskFolder where
  id : String
  note_id : String
  title : String
  order_index : Int
  is_collapsed : Bool
  created_at : String
deriving DecidableEq, Repr

/-- `Note` from useNotebooks.ts. -/
structure Note where
  id : String
  title : String
  notebook_id : String
  order_index : Int
  created_at : String
  tasks : List Task
  folders : List TaskFolder
deriving DecidableEq, Repr

/-- `Notebook` from useNotebooks.ts; `userRole` is one of
owner / admin / reader. -/
structure Notebook where
  id : String
  title : String
  owner_id : String
  is_shared : Bool
  share_code : Option String
  order_index : Int
  created_at : String
  notes : List Note
  memberCount : Nat
  userRole : String
deriving DecidableEq, Repr

/-! ## The dnd-kit reorder primitive

`arrayMove(array, from, to)` copies the array, removes the element at
`from` and re-inserts it at position `to` of the shortened array.  Both
call sites (`handleTaskDragEnd` in NoteCard, `handleDragEnd` in
NotebookView) only invoke it with indices produced by a successful
`findIndex`, so the embedding is guarded on `i < l.length` and returns the
list unchanged otherwise. -/

def arrayMove {α : Type} (l : List α) (i j : Nat) : List α :=
  if h : i < l.length then (l.eraseIdx i).insertIdx j (l.get ⟨i, h⟩) else l

/-- The `.map((item, index) => ({ id: item.id, order_index: index }))`
payload construction, indexing from `k`. -/
def assignIndicesFrom {α : Type} (idOf : α → String) (k : Nat) : List α → List (String × Nat)
  | [] => []
  | x :: xs => (idOf x, k) :: assignIndicesFrom idOf (k + 1) xs

/-- Reorder payload: `arrayMove(list, i, j).map((x, index) => (x.id, index))`. -/
def reorderAssign {α : Type} (idOf : α → String) (l : List α) (i j : Nat) :
    List (String × Nat) :=
  assignIndicesFrom idOf 0 (arrayMove l i j)

/-- The sibling list of one task container: the root list of a note when
`folderId` is `none`, otherwise the task list of that folder (the
`tasksInContainer` computation of `handleTaskDragEnd`, also used by
`addTask`). -/
def containerTasks (note : Note) (folderId : Option String) : List Task :=
  match folderId with
  | none => note.tasks.filter fun t => t.folder_id == none
  | some f => note.tasks.filter fun t => t.folder_id == some f

/-- The same-container reorder branch of `handleTaskDragEnd` in NoteCard:
`arrayMove(tasksInContainer, oldIndex, newIndex)` followed by total index
assignment. -/
def taskReorderPayload (note : Note) (folderId : Option String) (i j : Nat) :
    List (String × Nat) :=
  reorderAssign Task.id (containerTasks note folderId) i j

/-- `handleDragEnd` of NotebookView: `arrayMove(notebook.notes, oldIndex,
newIndex)` followed by total index assignment. -/
def noteReorderPayload (nb : Notebook) (i j : Nat) : List (String × Nat) :=
  reorderAssign Note.id nb.notes i j

/-! ## Optimistic reorder mutations (`useNotebooks.ts`)

React Query lifecycle: `onMutate` snapshots the current `notebooks` value
and applies the optimistic update; on durable-write failure `onError`
restores the snapshot verbatim and raises a toast; `onSettled` triggers a
full refetch (external, not modelled). -/

/-- The `onMutate` optimistic update of `reorderNotesMutation`: inside the
matching notebook, rebuild the note list in the payload order.  The source
builds a `Map` from note id to note and drops ids that miss
(`.filter(Boolean)`); with unique sibling ids this is `filterMap` of
`find?`. -/
def applyReorderNotesOptimistic (nbs : List Notebook) (notebookId : String)
    (newOrder : List (String × Nat)) : List Notebook :=
  nbs.map fun nb =>
    if nb.id == notebookId then
      { nb with notes := newOrder.filterMap fun p => nb.notes.find? fun n => n.id == p.1 }
    else nb

/-- The `onMutate` optimistic update of `reorderTasksMutation`: inside the
matching note, the root tasks (no `folder_id`) are rebuilt in payload
order and the folder tasks are appended after them. -/
def applyReorderTasksOptimistic (nbs : List Notebook) (noteId : String)
    (newOrder : List (String × Nat)) : List Notebook :=
  nbs.map fun nb =>
    { nb with notes := nb.notes.map fun note =>
        if note.id == noteId then
          let rootTasks := note.tasks.filter fun t => t.folder_id == none
          let reorderedTasks := newOrder.filterMap fun p => rootTasks.find? fun t => t.id == p.1
          let folderTasks := note.tasks.filter fun t => t.folder_id != none
          { note with tasks := reorderedTasks ++ folderTasks }
        else note }

/-- Outcome of one optimistic mutation run: the local notebook state once
the durable write has settled, and whether a failure toast was raised. -/
structure MutationResult where
  state : List Notebook
  errorNotified : Bool
deriving DecidableEq, Repr

/-- `reorderTasksMutation` run to settlement: snapshot (`onMutate`),
optimistic apply, then either keep the optimistic state (write succeeded)
or restore the snapshot and notify (`onError`). -/
def runReorderTasksMutation (nbs : List Notebook) (noteId : String)
    (newOrder : List (String × Nat)) (writeFails : Bool) : MutationResult :=
  let previousNotebooks := nbs
  let optimistic := applyReorderTasksOptimistic nbs noteId newOrder
  if writeFails then { state := previousNotebooks, errorNotified := true }
  else { state := optimistic, errorNotified := false }

/-- `reorderNotesMutation` run to settlement, same shape. -/
def runReorderNotesMutation (nbs : List Notebook) (notebookId : String)
    (newOrder : List (String × Nat)) (writeFails : Bool) : MutationResult :=
  let previousNotebooks := nbs
  let optimistic := applyReorderNotesOptimistic nbs notebookId newOrder
  if writeFails then { state := previousNotebooks, errorNotified := true }
  else { state := optimistic, errorNotified := false }

/-! ## Cross-container task move (`moveTaskToFolderMutation`) -/

/-- The per-task function of the `onMutate` update of
`moveTaskToFolderMutation`: patch `folder_id` on the matching task, leave
every other task untouched. -/
def moveTaskUpdate (taskId : String) (folderId : Option String) (t : Task) : Task :=
  if t.id == taskId then { t with folder_id := folderId } else t

/-- The full `onMutate` optimistic update of `moveTaskToFolderMutation`:
map `moveTaskUpdate` over every task of every note of every notebook. -/
def applyMoveTaskToFolder (nbs : List Notebook) (taskId : String)
    (folderId : Option String) : List Notebook :=
  nbs.map fun nb =>
    { nb with notes := nb.notes.map fun note =>
        { note with tasks := note.tasks.map (moveTaskUpdate taskId folderId) } }

/-! ## Completion toggling (`toggleTask`) -/

/-- The durable call issued by `toggleTask`. -/
inductive DurableOp where
  | deleteCompletion (taskId userId : String)
  | insertCompletion (taskId userId : String)
deriving DecidableEq, Repr

/-- Which durable call `toggleTask` issues: delete the (task, user) pair
when the user is already in `completedBy`, insert it otherwise. -/
def toggleTaskOp (t : Task) (uid : String) : DurableOp :=
  if t.completedBy.contains uid then DurableOp.deleteCompletion t.id uid
  else DurableOp.insertCompletion t.id uid

/-- The local state update of `toggleTask` on the matching task:
remove the user from `completedBy` and `completions` when present, append
otherwise (`userName` / `avatarUrl` come from the fresh profile fetch). -/
def toggleTaskLocal (t : Task) (uid userName : String) (avatarUrl : Option String) : Task :=
  if t.completedBy.contains uid then
    { t with completedBy := t.completedBy.filter fun v => v != uid,
             completions := t.completions.filter fun c => c.userId != uid }
  else
    { t with completedBy := t.completedBy ++ [uid],
             completions := t.completions ++ [⟨uid, userName, avatarUrl⟩] }

/-! ## Progress computations -/

/-- `NotebookProgress` result record. -/
structure Progress where
  completed : Nat
  total : Nat
  percentage : Nat
deriving DecidableEq, Repr

/-- `Math.round(num / den * 100)` on exact non-negative rationals:
`floor(100 num / den + 1/2) = (200 num + den) / (2 den)` in `Nat`
division. -/
def roundPct (num den : Nat) : Nat := (200 * num + den) / (2 * den)

/-- `calculateNoteProgress` of NoteCard: per-user progress over one note. -/
def calculateNoteProgress (note : Note) (userId : String) : Progress :=
  let total := note.tasks.length
  if total == 0 then { completed := 0, total := 0, percentage := 0 }
  else
    let completed := (note.tasks.filter fun t => t.completedBy.contains userId).length
    { completed := completed, total := total, percentage := roundPct completed total }

/-- `calculateProgress` of NotebookView (also NotebookSidebar): per-user
progress over all tasks of a notebook. -/
def calculateProgress (nb : Notebook) (userId : String) : Progress :=
  let allTasks := nb.notes.flatMap Note.tasks
  let total := allTasks.length
  if total == 0 then { completed := 0, total := 0, percentage := 0 }
  else
    let completed := (allTasks.filter fun t => t.completedBy.contains userId).length
    { completed := completed, total := total, percentage := roundPct completed total }

/-- `calculateGroupAverage` of NotebookView: total completion entries
across all tasks over `taskCount * memberCount`, rounded to a percent;
0 when the notebook has no tasks or no members. -/
def calculateGroupAverage (nb : Notebook) : Progress :=
  let allTasks := nb.notes.flatMap Note.tasks
  let total := allTasks.length
  if total == 0 || nb.memberCount == 0 then { completed := 0, total := 0, percentage := 0 }
  else
    let totalCompletions := allTasks.foldl (fun sum t => sum + t.completedBy.length) 0
    { completed := 0, total := 0,
      percentage := roundPct totalCompletions (total * nb.memberCount) }

/-! ## Realtime comment reconciliation (`TaskCommentsPanel`) -/

/-- `CommentRow` of TaskCommentsPanel. -/
structure CommentRow where
  id : String
  task_id : String
  user_id : String
  content : String
  created_at : String
  user_name : Option String
  avatar_url : Option String
deriving DecidableEq, Repr

/-- The raw `payload.new` row of a push INSERT event (no profile data). -/
structure CommentPayload where
  id : String
  task_id : String
  user_id : String
  content : String
  created_at : String
deriving DecidableEq, Repr

/-- Result of the async profile lookup for a push event. -/
structure ProfileInfo where
  name : Option String
  avatar_url : Option String
deriving DecidableEq, Repr

/-- JavaScript `s || d` on an optional string: `d` when the value is
missing or the empty string (falsy). -/
def jsOrString (s : Option String) (d : String) : String :=
  match s with
  | some v => if v == "" then d else v
  | none => d

/-- JavaScript `s || null` on an optional string. -/
def jsOrNull (s : Option String) : Option String :=
  match s with
  | some v => if v == "" then none else some v
  | none => none

/-- The comment row built by the INSERT handler:
`{ ...newRow, user_name: data?.name || 'Unknown', avatar_url:
data?.avatar_url || null }`. -/
def mkRealtimeComment (row : CommentPayload) (profile : ProfileInfo) : CommentRow :=
  { id := row.id, task_id := row.task_id, user_id := row.user_id,
    content := row.content, created_at := row.created_at,
    user_name := some (jsOrString profile.name "Unknown"),
    avatar_url := jsOrNull profile.avatar_url }

/-- The inner state update of the INSERT handler, run when the profile
lookup resolves: re-check the durable id (second race window) and only
then append. -/
def profileResolvedAppend (comments : List CommentRow) (row : CommentPayload)
    (profile : ProfileInfo) : List CommentRow :=
  if comments.any fun c => c.id == row.id then comments
  else comments ++ [mkRealtimeComment row profile]

/-- The INSERT handler of the push subscription run without interleaving:
the outer dedup gate returns the state unchanged when the durable id is
already held (and then never schedules the profile lookup); otherwise the
lookup resolves against the same state and appends. -/
def handleRealtimeInsert (comments : List CommentRow) (row : CommentPayload)
    (profile : ProfileInfo) : List CommentRow :=
  if comments.any fun c => c.id == row.id then comments
  else profileResolvedAppend comments row profile

/-- The DELETE handler: remove by durable id, no-op when absent. -/
def handleRealtimeDelete (comments : List CommentRow) (rowId : String) : List CommentRow :=
  comments.filter fun c => c.id != rowId

/-- `handleSend`, optimistic phase: append the locally-generated temporary
comment. -/
def sendOptimistic (comments : List CommentRow) (temp : CommentRow) : List CommentRow :=
  comments ++ [temp]

/-- `handleSend`, direct-insert response phase: drop the temporary entry,
then append the durable record only when its id has not already been
merged by the push echo. -/
def sendInsertResolved (comments : List CommentRow) (tempId : String)
    (real : CommentRow) : List CommentRow :=
  let withoutTemp := comments.filter fun c => c.id != tempId
  if withoutTemp.any fun c => c.id == real.id then withoutTemp
  else withoutTemp ++ [real]

/-- Number of entries holding a given durable id. -/
def idCount (comments : List CommentRow) (d : String) : Nat :=
  (comments.filter fun c => c.id == d).length

/-! ## Join by share code (`JoinNotebookDialog.handleJoin`) -/

/-- A `notebooks` table row as read by `handleJoin`. -/
structure NotebookRow where
  id : String
  title : String
  owner_id : String
  is_shared : Bool
  share_code : Option String
deriving DecidableEq, Repr

/-- A `notebook_members` table row. -/
structure MemberRow where
  id : String
  notebook_id : String
  user_id : String
  role : String
deriving DecidableEq, Repr

/-- The durable tables `handleJoin` touches. -/
structure JoinDb where
  notebooks : List NotebookRow
  members : List MemberRow
deriving DecidableEq, Repr

/-- User-facing outcome of `handleJoin`. -/
inductive JoinResult where
  | error (message : String)
  | joined (notebookTitle : String)
deriving DecidableEq, Repr

/-- JavaScript `toUpperCase()`, character by character. -/
def jsToUpper (s : String) : String := String.mk (s.data.map Char.toUpper)

/-- An ASCII whitespace character (the kinds `trim()` strips here). -/
def isSpaceChar (c : Char) : Bool := c == ' ' || c == '\t' || c == '\n' || c == '\r'

/-- JavaScript `trim()`: drop whitespace from both ends. -/
def jsTrim (s : String) : String :=
  String.mk (((s.data.dropWhile isSpaceChar).reverse.dropWhile isSpaceChar).reverse)

/-- `handleJoin` of JoinNotebookDialog: look the notebook up by the
trimmed, upper-cased share code (`maybeSingle`; share codes are unique),
reject with a distinct message when no notebook matches, when it is not
shared, or when the user is already a member; otherwise insert a reader
membership row (`newRowId` stands for the server-generated row id). -/
def handleJoin (db : JoinDb) (userId shareCode newRowId : String) : JoinDb × JoinResult :=
  let code := jsToUpper (jsTrim shareCode)
  match db.notebooks.find? fun nb => nb.share_code == some code with
  | none => (db, JoinResult.error "Invalid share code")
  | some nb =>
    if !nb.is_shared then (db, JoinResult.error "This notebook is not shared")
    else
      match db.members.find? fun m => m.notebook_id == nb.id && m.user_id == userId with
      | some _ => (db, JoinResult.error "You are already a member of this notebook")
      | none =>
        ({ db with members := db.members ++ [⟨newRowId, nb.id, userId, "reader"⟩] },
          JoinResult.joined nb.title)

/-! ## Task creation (`addTask`) -/

/-- JavaScript `x || 0` on a number: 0 stays 0 (falsy), any other value is
returned unchanged, so on integers this is the identity. -/
def jsOrZero (i : Int) : Int := if i == 0 then 0 else i

/-- `Math.max(...values)` over a non-empty list; `-1` on the empty list
(the `addTask` source only calls it on non-empty input, guarded by
`length > 0`). -/
def maxOrderFold (l : List Int) : Int :=
  match l with
  | [] => -1
  | x :: xs => xs.foldl max x

/-- The `order_index` chosen by `addTask` for the new task:
`(folderTasks.length > 0 ? Math.max(...folderTasks.map(t =>
t.order_index || 0)) : -1) + 1`. -/
def addTaskOrderIndex (note : Note) (folderId : Option String) : Int :=
  let folderTasks := containerTasks note folderId
  let maxOrder :=
    if folderTasks.length > 0 then maxOrderFold (folderTasks.map fun t => jsOrZero t.order_index)
    else -1
  maxOrder + 1

/-- The per-note piece of the `addTask` local state update: append the
returned record (with empty completion data) to the matching note. -/
def addTaskToNote (noteId : String) (newTask : Task) (n : Note) : Note :=
  if n.id == noteId then { n with tasks := n.tasks ++ [newTask] } else n

/-- The per-notebook piece of the `addTask` local state update. -/
def addTaskToNotebook (notebookId noteId : String) (newTask : Task) (nb : Notebook) : Notebook :=
  if nb.id == notebookId then { nb with notes := nb.notes.map (addTaskToNote noteId newTask) }
  else nb

/-- The full `addTask` local state update. -/
def applyAddTaskLocal (nbs : List Notebook) (notebookId noteId : String)
    (newTask : Task) : List Notebook :=
  nbs.map (addTaskToNotebook notebookId noteId newTask)

/-! ## Member count (`fetchNotebooks`) -/

/-- The `memberCount` computed by `fetchNotebooks` for one notebook: the
number of `notebook_members` rows for that notebook id, plus one added
unconditionally for the owner (`(memberCount || 0) + 1`). -/
def fetchMemberCount (members : List MemberRow) (notebookId : String) : Nat :=
  (members.filter fun m => m.notebook_id == notebookId).length + 1

/-! ## Concrete fixtures used by witnesses -/

/-- A small task fixture. -/
def demoTask (i : String) (fid : Option String) (oi : Int) (done : List String) : Task :=
  { id := i, title := i, note_id := "n1", folder_id := fid, order_index := oi,
    created_at := "", completedBy := done,
    completions := done.map fun u => { userId := u, userName := u, avatarUrl := none } }

/-- A small note fixture. -/
def demoNote (ts : List Task) : Note :=
  { id := "n1", title := "note", notebook_id := "b1", order_index := 0,
    created_at := "", tasks := ts, folders := [] }

/-- A small notebook fixture. -/
def demoNotebook (ns : List Note) (mc : Nat) : Notebook :=
  { id := "b1", title := "nb", owner_id := "owner", is_shared := true,
    share_code := some "ABCD2345", order_index := 0, created_at := "",
    notes := ns, memberCount := mc, userRole := "owner" }

/-- A small comment fixture. -/
def demoComment (i uid : String) : CommentRow :=
  { id := i, task_id := "t1", user_id := uid, content := "hi",
    created_at := "", user_name := some uid, avatar_url := none }

/-! ### Helper lemmas about the reorder primitive -/

theorem assignIndicesFrom_map_fst {α : Type} (idOf : α → String) (k : Nat) (l : List α) :
    (assignIndicesFrom idOf k l).map Prod.fst = l.map idOf := by
  induction l generalizing k with
  | nil => rfl
  | cons x xs ih => simp [assignIndicesFrom, ih]

theorem assignIndicesFrom_map_snd {α : Type} (idOf : α → String) (k : Nat) (l : List α) :
    (assignIndicesFrom idOf k l).map Prod.snd = List.range' k l.length := by
  induction l generalizing k with
  | nil => rfl
  | cons x xs ih => simp [assignIndicesFrom, ih, List.range'_succ]

theorem perm_insertIdx {α : Type} (x : α) :
    ∀ (n : Nat) (l : List α), n ≤ l.length → (l.insertIdx n x).Perm (x :: l) := by
  intro n
  induction n with
  | zero => intro l _; simp
  | succ m ih =>
    intro l hl
    cases l with
    | nil => simp at hl
    | cons a as =>
      simp only [List.insertIdx_succ_cons]
      exact ((ih as (Nat.le_of_succ_le_succ hl)).cons a).trans (List.Perm.swap x a as)

theorem perm_eraseIdx {α : Type} :
    ∀ (i : Nat) (l : List α) (h : i < l.length), l.Perm (l.get ⟨i, h⟩ :: l.eraseIdx i) := by
  intro i
  induction i with
  | zero =>
    intro l h
    cases l with
    | nil => simp at h
    | cons a as => simp
  | succ m ih =>
    intro l h
    cases l with
    | nil => simp at h
    | cons a as =>
      have h' : m < as.length := Nat.lt_of_succ_lt_succ (by simpa using h)
      simpa using ((ih as h').cons a).trans (List.Perm.swap _ a _)

theorem arrayMove_perm {α : Type} (l : List α) (i j : Nat)
    (hi : i < l.length) (hj : j < l.length) : (arrayMove l i j).Perm l := by
  unfold arrayMove
  rw [dif_pos hi]
  have hlen : (l.eraseIdx i).length + 1 = l.length := List.length_eraseIdx_add_one hi
  have hj' : j ≤ (l.eraseIdx i).length := by omega
  exact (perm_insertIdx _ j _ hj').trans (perm_eraseIdx i l hi).symm

theorem arrayMove_length {α : Type} (l : List α) (i j : Nat)
    (hi : i < l.length) (hj : j < l.length) : (arrayMove l i j).length = l.length :=
  (arrayMove_perm l i j hi hj).length_eq


theorem reorderAssign_spec {α : Type} (idOf : α → String) (l : List α) (i j : Nat)
    (hi : i < l.length) (hj : j < l.length) :
    (reorderAssign idOf l i j).map Prod.fst = (arrayMove l i j).map idOf ∧
    ((reorderAssign idOf l i j).map Prod.fst).Perm (l.map idOf) ∧
    (reorderAssign idOf l i j).map Prod.snd = List.range l.length := by
  refine ⟨assignIndicesFrom_map_fst idOf 0 (arrayMove l i j), ?_, ?_⟩
  · rw [reorderAssign, assignIndicesFrom_map_fst]
    exact (arrayMove_perm l i j hi hj).map idOf
  · rw [reorderAssign, assignIndicesFrom_map_snd, arrayMove_length l i j hi hj,
      List.range_eq_range']

/-- C1: a reorder of a sibling container (a note's root task list, a
folder's task list via `handleTaskDragEnd`, or a notebook's note list via
`handleDragEnd`) at valid old and new positions produces a payload whose
id at each position is the id of the item now at that position, whose id
multiset equals the container's id multiset, and whose fresh order_index
values are exactly 0, 1, ..., n-1 in position order (hence distinct and
contiguous). -/
theorem reorder_preserves_ids_and_assigns_positions :
    (∀ (note : Note) (fid : Option String) (i j : Nat),
        i < (containerTasks note fid).length → j < (containerTasks note fid).length →
        (taskReorderPayload note fid i j).map Prod.fst
            = (arrayMove (containerTasks note fid) i j).map Task.id ∧
        ((taskReorderPayload note fid i j).map Prod.fst).Perm
            ((containerTasks note fid).map Task.id) ∧
        (taskReorderPayload note fid i j).map Prod.snd
            = List.range (containerTasks note fid).length) ∧
    (∀ (nb : Notebook) (i j : Nat),
        i < nb.notes.length → j < nb.notes.length →
        (noteReorderPayload nb i j).map Prod.fst
            = (arrayMove nb.notes i j).map Note.id ∧
        ((noteReorderPayload nb i j).map Prod.fst).Perm (nb.notes.map Note.id) ∧
        (noteReorderPayload nb i j).map Prod.snd = List.range nb.notes.length) := by
  constructor
  · intro note fid i j hi hj
    exact reorderAssign_spec Task.id (containerTasks note fid) i j hi hj
  · intro nb i j hi hj
    exact reorderAssign_spec Note.id nb.notes i j hi hj

/-- C1 witness: moving the first of three root tasks to position 1 keeps
the id multiset and assigns indices 0, 1, 2. -/
theorem reorder_preserves_ids_and_assigns_positions_witness :
    (taskReorderPayload
        (demoNote [demoTask "A" none 0 [], demoTask "B" none 1 [], demoTask "C" none 2 []])
        none 0 1).map Prod.snd
      = List.range 3 ∧
    ((taskReorderPayload
        (demoNote [demoTask "A" none 0 [], demoTask "B" none 1 [], demoTask "C" none 2 []])
        none 0 1).map Prod.fst).Perm ["A", "B", "C"] := by
  have h := reorder_preserves_ids_and_assigns_positions.1
    (demoNote [demoTask "A" none 0 [], demoTask "B" none 1 [], demoTask "C" none 2 []])
    none 0 1 (by decide) (by decide)
  refine ⟨?_, ?_⟩
  · have h2 := h.2.2
    simpa using h2
  · have h1 := h.2.1
    simpa using h1

/-- C2: an optimistic reorder of tasks or of notes whose durable write
fails settles in exactly the pre-reorder snapshot (full rollback, not a
partially-applied order) and raises a user-visible failure notification;
in particular a container [A,B,C] optimistically reordered toward [B,A,C]
ends in [A,B,C] even though the optimistic apply had changed the state. -/
theorem reorder_failure_rolls_back_to_snapshot :
    (∀ (nbs : List Notebook) (cid : String) (newOrder : List (String × Nat)),
      (runReorderTasksMutation nbs cid newOrder true).state = nbs ∧
      (runReorderTasksMutation nbs cid newOrder true).errorNotified = true ∧
      (runReorderNotesMutation nbs cid newOrder true).state = nbs ∧
      (runReorderNotesMutation nbs cid newOrder true).errorNotified = true) ∧
    (applyReorderTasksOptimistic
        [demoNotebook [demoNote [demoTask "A" none 0 [], demoTask "B" none 1 [],
          demoTask "C" none 2 []]] 2] "n1" [("B", 0), ("A", 1), ("C", 2)]
      ≠ [demoNotebook [demoNote [demoTask "A" none 0 [], demoTask "B" none 1 [],
          demoTask "C" none 2 []]] 2]) ∧
    (runReorderTasksMutation
        [demoNotebook [demoNote [demoTask "A" none 0 [], demoTask "B" none 1 [],
          demoTask "C" none 2 []]] 2] "n1" [("B", 0), ("A", 1), ("C", 2)] true).state
      = [demoNotebook [demoNote [demoTask "A" none 0 [], demoTask "B" none 1 [],
          demoTask "C" none 2 []]] 2] := by
  exact ⟨fun nbs cid newOrder => ⟨rfl, rfl, rfl, rfl⟩, by decide, by decide⟩

/-! ### Helper lemmas about comment id counting -/

theorem idCount_append (a b : List CommentRow) (d : String) :
    idCount (a ++ b) d = idCount a d + idCount b d := by
  simp [idCount, List.filter_append]

theorem idCount_singleton (c : CommentRow) (d : String) :
    idCount [c] d = if c.id == d then 1 else 0 := by
  by_cases h : c.id == d <;> simp [idCount, List.filter, h]

theorem idCount_cons (c : CommentRow) (cs : List CommentRow) (d : String) :
    idCount (c :: cs) d = (if c.id == d then 1 else 0) + idCount cs d := by
  by_cases h : c.id == d
  · simp [idCount, List.filter_cons, h]
    omega
  · simp [idCount, List.filter_cons, h]

theorem idCount_filter_other (s : List CommentRow) (tid d : String) (h : tid ≠ d) :
    idCount (s.filter fun c => c.id != tid) d = idCount s d := by
  induction s with
  | nil => rfl
  | cons c cs ih =>
    rw [List.filter_cons]
    by_cases h1 : (c.id != tid) = true
    · rw [if_pos h1, idCount_cons, idCount_cons, ih]
    · have h1' : c.id = tid := by simpa using h1
      have hd : (c.id == d) = false := beq_eq_false_iff_ne.mpr (by rw [h1']; exact h)
      rw [if_neg h1, ih, idCount_cons, hd]
      simp

theorem any_id_iff_idCount_pos (s : List CommentRow) (d : String) :
    (s.any fun c => c.id == d) = true ↔ 0 < idCount s d := by
  rw [idCount, ← List.countP_eq_length_filter, List.countP_pos_iff, List.any_eq_true]

theorem sendInsertResolved_idCount_of_absent (s : List CommentRow) (tid : String)
    (real : CommentRow) (d : String) (h1 : tid ≠ d) (h2 : real.id = d)
    (h0 : idCount s d = 0) : idCount (sendInsertResolved s tid real) d = 1 := by
  have hw : idCount (s.filter fun c => c.id != tid) d = 0 :=
    (idCount_filter_other s tid d h1).trans h0
  have hany : ((s.filter fun c => c.id != tid).any fun c => c.id == real.id) = false := by
    rw [← Bool.not_eq_true]
    intro hc
    rw [h2, any_id_iff_idCount_pos, hw] at hc
    exact Nat.lt_irrefl 0 hc
  rw [sendInsertResolved]
  simp only [hany, Bool.false_eq_true, if_false]
  rw [idCount_append, hw, idCount_singleton]
  simp [h2]

theorem sendInsertResolved_idCount_of_present (s : List CommentRow) (tid : String)
    (real : CommentRow) (d : String) (h1 : tid ≠ d) (h2 : real.id = d)
    (h0 : 0 < idCount s d) : idCount (sendInsertResolved s tid real) d = idCount s d := by
  have hw : idCount (s.filter fun c => c.id != tid) d = idCount s d :=
    idCount_filter_other s tid d h1
  have hany : ((s.filter fun c => c.id != tid).any fun c => c.id == real.id) = true := by
    rw [h2, any_id_iff_idCount_pos, hw]
    exact h0
  rw [sendInsertResolved]
  simp only [hany, if_true]
  exact hw

theorem handleRealtimeInsert_idCount_of_absent (s : List CommentRow) (row : CommentPayload)
    (profile : ProfileInfo) (d : String) (h : row.id = d) (h0 : idCount s d = 0) :
    idCount (handleRealtimeInsert s row profile) d = 1 := by
  have hany : (s.any fun c => c.id == row.id) = false := by
    rw [← Bool.not_eq_true]
    intro hc
    rw [h, any_id_iff_idCount_pos, h0] at hc
    exact Nat.lt_irrefl 0 hc
  rw [handleRealtimeInsert, profileResolvedAppend]
  simp only [hany, Bool.false_eq_true, if_false]
  rw [idCount_append, h0, idCount_singleton]
  simp [mkRealtimeComment, h]

theorem handleRealtimeInsert_noop (s : List CommentRow) (row : CommentPayload)
    (profile : ProfileInfo) (h : (s.any fun c => c.id == row.id) = true) :
    handleRealtimeInsert s row profile = s := by
  rw [handleRealtimeInsert]
  simp [h]

theorem profileResolvedAppend_noop (s : List CommentRow) (row : CommentPayload)
    (profile : ProfileInfo) (h : (s.any fun c => c.id == row.id) = true) :
    profileResolvedAppend s row profile = s := by
  rw [profileResolvedAppend]
  simp [h]

/-- C3: starting from a thread that does not yet hold the durable id `d`,
sending a comment (optimistic temp entry, then direct-insert response
carrying `d`) and receiving the push insert echo for `d` leaves exactly
one entry with id `d`, in every arrival order: response before echo, echo
before response, and echo gated before the response but resolved after it
(the second race window); moreover a push insert whose durable id is
already held is a strict no-op. -/
theorem comment_send_echo_exactly_once :
    ∀ (s : List CommentRow) (temp real : CommentRow) (row : CommentPayload)
      (profile : ProfileInfo) (d : String),
      real.id = d → row.id = d → temp.id ≠ d → idCount s d = 0 →
      idCount (handleRealtimeInsert
          (sendInsertResolved (sendOptimistic s temp) temp.id real) row profile) d = 1 ∧
      idCount (sendInsertResolved
          (handleRealtimeInsert (sendOptimistic s temp) row profile) temp.id real) d = 1 ∧
      idCount (profileResolvedAppend
          (sendInsertResolved (sendOptimistic s temp) temp.id real) row profile) d = 1 ∧
      (∀ (s2 : List CommentRow) (row2 : CommentPayload) (profile2 : ProfileInfo),
        (s2.any fun c => c.id == row2.id) = true →
        handleRealtimeInsert s2 row2 profile2 = s2) := by
  intro s temp real row profile d hreal hrow htemp h0
  have hs1 : idCount (sendOptimistic s temp) d = 0 := by
    rw [sendOptimistic, idCount_append, h0, idCount_singleton]
    simp [htemp]
  have hA1 : idCount (sendInsertResolved (sendOptimistic s temp) temp.id real) d = 1 :=
    sendInsertResolved_idCount_of_absent _ _ _ _ (by rw [← hreal] at htemp ⊢; exact htemp)
      hreal hs1
  refine ⟨?_, ?_, ?_, ?_⟩
  · have hany : ((sendInsertResolved (sendOptimistic s temp) temp.id real).any
        fun c => c.id == row.id) = true := by
      rw [hrow, any_id_iff_idCount_pos, hA1]
      exact Nat.one_pos
    rw [handleRealtimeInsert_noop _ _ _ hany]
    exact hA1
  · have hB1 : idCount (handleRealtimeInsert (sendOptimistic s temp) row profile) d = 1 :=
      handleRealtimeInsert_idCount_of_absent _ _ _ _ hrow hs1
    have := sendInsertResolved_idCount_of_present
      (handleRealtimeInsert (sendOptimistic s temp) row profile) temp.id real d
      (by rw [← hreal] at htemp ⊢; exact htemp) hreal (by rw [hB1]; exact Nat.one_pos)
    rw [this, hB1]
  · have hany : ((sendInsertResolved (sendOptimistic s temp) temp.id real).any
        fun c => c.id == row.id) = true := by
      rw [hrow, any_id_iff_idCount_pos, hA1]
      exact Nat.one_pos
    rw [profileResolvedAppend_noop _ _ _ hany]
    exact hA1
  · intro s2 row2 profile2 h
    exact handleRealtimeInsert_noop s2 row2 profile2 h

/-- C3 witness: concrete run from an empty thread with temp id temp_1 and
durable id c1, in both arrival orders. -/
theorem comment_send_echo_exactly_once_witness :
    idCount (handleRealtimeInsert
        (sendInsertResolved (sendOptimistic [] (demoComment "temp_1" "u"))
          (demoComment "temp_1" "u").id (demoComment "c1" "u"))
        ⟨"c1", "t1", "u", "hi", ""⟩ ⟨some "u", none⟩) "c1" = 1 ∧
    idCount (sendInsertResolved
        (handleRealtimeInsert (sendOptimistic [] (demoComment "temp_1" "u"))
          ⟨"c1", "t1", "u", "hi", ""⟩ ⟨some "u", none⟩)
        (demoComment "temp_1" "u").id (demoComment "c1" "u")) "c1" = 1 := by
  have h := comment_send_echo_exactly_once [] (demoComment "temp_1" "u")
    (demoComment "c1" "u") ⟨"c1", "t1", "u", "hi", ""⟩ ⟨some "u", none⟩ "c1"
    rfl rfl (by decide) rfl
  exact ⟨h.1, h.2.1⟩

/-! ### Helper lemmas about toggleTask -/

theorem toggleTaskLocal_of_mem (t : Task) (uid n : String) (a : Option String)
    (h : uid ∈ t.completedBy) :
    toggleTaskLocal t uid n a =
      { t with completedBy := List.filter (fun v => v != uid) t.completedBy,
               completions := List.filter (fun c => c.userId != uid) t.completions } := by
  rw [toggleTaskLocal, if_pos (by simpa using h)]

theorem toggleTaskLocal_of_not_mem (t : Task) (uid n : String) (a : Option String)
    (h : uid ∉ t.completedBy) :
    toggleTaskLocal t uid n a =
      { t with completedBy := t.completedBy ++ [uid],
               completions := t.completions ++ [⟨uid, n, a⟩] } := by
  rw [toggleTaskLocal, if_neg (by simpa using h)]

theorem toggleTaskLocal_completedBy_of_mem (t : Task) (uid n : String) (a : Option String)
    (h : uid ∈ t.completedBy) :
    (toggleTaskLocal t uid n a).completedBy = List.filter (fun v => v != uid) t.completedBy := by
  rw [toggleTaskLocal_of_mem t uid n a h]

theorem toggleTaskLocal_completions_of_mem (t : Task) (uid n : String) (a : Option String)
    (h : uid ∈ t.completedBy) :
    (toggleTaskLocal t uid n a).completions
      = List.filter (fun c => c.userId != uid) t.completions := by
  rw [toggleTaskLocal_of_mem t uid n a h]

theorem toggleTaskLocal_completedBy_of_not_mem (t : Task) (uid n : String) (a : Option String)
    (h : uid ∉ t.completedBy) :
    (toggleTaskLocal t uid n a).completedBy = t.completedBy ++ [uid] := by
  rw [toggleTaskLocal_of_not_mem t uid n a h]

theorem toggleTaskLocal_completions_of_not_mem (t : Task) (uid n : String) (a : Option String)
    (h : uid ∉ t.completedBy) :
    (toggleTaskLocal t uid n a).completions = t.completions ++ [⟨uid, n, a⟩] := by
  rw [toggleTaskLocal_of_not_mem t uid n a h]

/-- C4: one `toggleTask` removes the user from the task's completion set
when already present (issuing a durable delete of the pair) and adds the
user otherwise (issuing a durable insert); toggling twice in succession
with both durable calls succeeding restores the completion set
(`completedBy` and the user set of `completions`) to its original value.
The hypothesis is the invariant, maintained by `fetchNotebooks` and by
`toggleTask` itself, that `completedBy` and `completions` hold the same
users. -/
theorem toggle_twice_restores_completion_set :
    ∀ (t : Task) (uid name1 name2 : String) (av1 av2 : Option String),
      (uid ∈ t.completedBy ↔ ∃ c ∈ t.completions, c.userId = uid) →
      (t.completedBy.contains uid = true →
          toggleTaskOp t uid = DurableOp.deleteCompletion t.id uid ∧
          uid ∉ (toggleTaskLocal t uid name1 av1).completedBy) ∧
      (t.completedBy.contains uid = false →
          toggleTaskOp t uid = DurableOp.insertCompletion t.id uid ∧
          uid ∈ (toggleTaskLocal t uid name1 av1).completedBy) ∧
      (∀ v, v ∈ (toggleTaskLocal (toggleTaskLocal t uid name1 av1) uid name2 av2).completedBy
          ↔ v ∈ t.completedBy) ∧
      (∀ v, (∃ c ∈ (toggleTaskLocal (toggleTaskLocal t uid name1 av1) uid name2 av2).completions,
            c.userId = v) ↔ ∃ c ∈ t.completions, c.userId = v) := by
  intro t uid name1 name2 av1 av2 hco
  by_cases hc : uid ∈ t.completedBy
  · have e1cb := toggleTaskLocal_completedBy_of_mem t uid name1 av1 hc
    have e1cp := toggleTaskLocal_completions_of_mem t uid name1 av1 hc
    have hnm : uid ∉ (toggleTaskLocal t uid name1 av1).completedBy := by
      rw [e1cb]
      simp
    have e2cb := toggleTaskLocal_completedBy_of_not_mem
      (toggleTaskLocal t uid name1 av1) uid name2 av2 hnm
    have e2cp := toggleTaskLocal_completions_of_not_mem
      (toggleTaskLocal t uid name1 av1) uid name2 av2 hnm
    refine ⟨?_, ?_, ?_, ?_⟩
    · intro _
      exact ⟨by rw [toggleTaskOp, if_pos (by simpa using hc)], hnm⟩
    · intro h
      rw [(by simpa using hc : t.completedBy.contains uid = true)] at h
      exact absurd h (by decide)
    · intro v
      rw [e2cb, e1cb]
      by_cases hv : v = uid
      · subst hv
        simp [hc]
      · simp [List.mem_append, List.mem_filter, hv]
    · intro v
      rw [e2cp, e1cp]
      by_cases hv : v = uid
      · subst hv
        refine iff_of_true ⟨⟨v, name2, av2⟩, by simp, rfl⟩ (hco.mp hc)
      · constructor
        · rintro ⟨c, hmem, hcv⟩
          simp only [List.mem_append, List.mem_filter, List.mem_singleton] at hmem
          rcases hmem with ⟨hin, _⟩ | heq
          · exact ⟨c, hin, hcv⟩
          · subst heq
            exact absurd hcv.symm (by simpa using hv)
        · rintro ⟨c, hmem, hcv⟩
          refine ⟨c, ?_, hcv⟩
          simp only [List.mem_append, List.mem_filter, List.mem_singleton]
          left
          exact ⟨hmem, by simpa [hcv] using hv⟩
  · have e1cb := toggleTaskLocal_completedBy_of_not_mem t uid name1 av1 hc
    have e1cp := toggleTaskLocal_completions_of_not_mem t uid name1 av1 hc
    have hm : uid ∈ (toggleTaskLocal t uid name1 av1).completedBy := by
      rw [e1cb]
      simp
    have e2cb := toggleTaskLocal_completedBy_of_mem
      (toggleTaskLocal t uid name1 av1) uid name2 av2 hm
    have e2cp := toggleTaskLocal_completions_of_mem
      (toggleTaskLocal t uid name1 av1) uid name2 av2 hm
    refine ⟨?_, ?_, ?_, ?_⟩
    · intro h
      rw [(by simpa using hc : t.completedBy.contains uid = false)] at h
      exact absurd h (by decide)
    · intro _
      exact ⟨by rw [toggleTaskOp, if_neg (by simpa using hc)], hm⟩
    · intro v
      rw [e2cb, e1cb]
      by_cases hv : v = uid
      · subst hv
        simp [hc]
      · simp [List.mem_append, List.mem_filter, hv]
    · intro v
      rw [e2cp, e1cp]
      by_cases hv : v = uid
      · subst hv
        refine iff_of_false ?_ ?_
        · rintro ⟨c, hmem, hcv⟩
          simp only [List.mem_filter, List.mem_append, List.mem_singleton] at hmem
          rcases hmem with ⟨_, hne⟩
          rw [hcv] at hne
          simp at hne
        · intro h
          exact hc (hco.mpr h)
      · constructor
        · rintro ⟨c, hmem, hcv⟩
          simp only [List.mem_filter, List.mem_append, List.mem_singleton] at hmem
          rcases hmem with ⟨hin | heq, _⟩
          · exact ⟨c, hin, hcv⟩
          · subst heq
            exact absurd hcv.symm (by simpa using hv)
        · rintro ⟨c, hmem, hcv⟩
          refine ⟨c, ?_, hcv⟩
          simp only [List.mem_filter, List.mem_append, List.mem_singleton]
          exact ⟨Or.inl hmem, by simpa [hcv] using hv⟩

/-- C4 witness: on a task completed by users U and V, toggling for U
issues a durable delete and a double toggle leaves V's membership (and
the whole set) intact. -/
theorem toggle_twice_restores_completion_set_witness :
    (toggleTaskOp (demoTask "T" none 0 ["U", "V"]) "U"
      = DurableOp.deleteCompletion (demoTask "T" none 0 ["U", "V"]).id "U") ∧
    ("V" ∈ (toggleTaskLocal
        (toggleTaskLocal (demoTask "T" none 0 ["U", "V"]) "U" "n1" none) "U" "n2" none).completedBy
      ↔ "V" ∈ (demoTask "T" none 0 ["U", "V"]).completedBy) := by
  have h := toggle_twice_restores_completion_set (demoTask "T" none 0 ["U", "V"])
    "U" "n1" "n2" none none (by decide)
  exact ⟨(h.1 (by decide)).1, h.2.2.1 "V"⟩

/-! ### Rounding characterization -/

theorem roundPct_bounds (c t : Nat) (h : 0 < t) :
    2 * t * roundPct c t ≤ 200 * c + t ∧
    200 * c + t < 2 * t * (roundPct c t + 1) := by
  have h2 : 0 < 2 * t := by omega
  have hm := Nat.div_add_mod (200 * c + t) (2 * t)
  have hlt := Nat.mod_lt (200 * c + t) h2
  rw [roundPct]
  constructor
  · exact Nat.le.intro hm
  · calc 200 * c + t = 2 * t * ((200 * c + t) / (2 * t)) + (200 * c + t) % (2 * t) := hm.symm
      _ < 2 * t * ((200 * c + t) / (2 * t)) + 2 * t := Nat.add_lt_add_left hlt _
      _ = 2 * t * ((200 * c + t) / (2 * t)) + 2 * t * 1 := by ring
      _ = 2 * t * ((200 * c + t) / (2 * t) + 1) := by ring

/-- C5: for a note scope and for a notebook scope, the per-user progress
percentage is 0 when the scope has no tasks (no division by zero), and
otherwise is the integer p with p - 1/2 <= 100 * completed / total
< p + 1/2 (written multiplied out), i.e. round(100 * completed / total)
with Math.round's half-up tie rule, where completed counts the scope's
tasks whose completedBy contains the user. -/
theorem progress_percentage_is_rounded_ratio :
    (∀ (note : Note) (uid : String),
      (note.tasks.length = 0 → (calculateNoteProgress note uid).percentage = 0) ∧
      (0 < note.tasks.length →
        2 * note.tasks.length * (calculateNoteProgress note uid).percentage
            ≤ 200 * (note.tasks.filter fun t => t.completedBy.contains uid).length
              + note.tasks.length ∧
        200 * (note.tasks.filter fun t => t.completedBy.contains uid).length
              + note.tasks.length
            < 2 * note.tasks.length * ((calculateNoteProgress note uid).percentage + 1))) ∧
    (∀ (nb : Notebook) (uid : String),
      ((nb.notes.flatMap Note.tasks).length = 0 →
        (calculateProgress nb uid).percentage = 0) ∧
      (0 < (nb.notes.flatMap Note.tasks).length →
        2 * (nb.notes.flatMap Note.tasks).length * (calculateProgress nb uid).percentage
            ≤ 200 * ((nb.notes.flatMap Note.tasks).filter
                fun t => t.completedBy.contains uid).length
              + (nb.notes.flatMap Note.tasks).length ∧
        200 * ((nb.notes.flatMap Note.tasks).filter
                fun t => t.completedBy.contains uid).length
              + (nb.notes.flatMap Note.tasks).length
            < 2 * (nb.notes.flatMap Note.tasks).length
                * ((calculateProgress nb uid).percentage + 1))) := by
  constructor
  · intro note uid
    constructor
    · intro h0
      rw [calculateNoteProgress]
      simp [h0]
    · intro hpos
      have hne : (note.tasks.length == 0) = false := by
        simpa using Nat.pos_iff_ne_zero.mp hpos
      have hp : (calculateNoteProgress note uid).percentage
          = roundPct (note.tasks.filter fun t => t.completedBy.contains uid).length
              note.tasks.length := by
        rw [calculateNoteProgress]
        simp [hne]
      rw [hp]
      exact roundPct_bounds _ _ hpos
  · intro nb uid
    constructor
    · intro h0
      rw [calculateProgress]
      simp [h0]
    · intro hpos
      have hne : ¬(((nb.notes.flatMap Note.tasks).length == 0) = true) := by
        simpa using Nat.pos_iff_ne_zero.mp hpos
      have hp : (calculateProgress nb uid).percentage
          = roundPct ((nb.notes.flatMap Note.tasks).filter
              fun t => t.completedBy.contains uid).length
              (nb.notes.flatMap Note.tasks).length := by
        rw [calculateProgress, if_neg hne]
      rw [hp]
      exact roundPct_bounds _ _ hpos

/-- C5 witness: a note with 4 tasks of which user U completed 1 yields 25
percent; an empty note yields 0 percent without dividing by zero. -/
theorem progress_percentage_is_rounded_ratio_witness :
    (2 * (demoNote [demoTask "A" none 0 ["U"], demoTask "B" none 1 [],
        demoTask "C" none 2 [], demoTask "D" none 3 []]).tasks.length
       * (calculateNoteProgress (demoNote [demoTask "A" none 0 ["U"], demoTask "B" none 1 [],
            demoTask "C" none 2 [], demoTask "D" none 3 []]) "U").percentage
      ≤ 200 * ((demoNote [demoTask "A" none 0 ["U"], demoTask "B" none 1 [],
            demoTask "C" none 2 [], demoTask "D" none 3 []]).tasks.filter
          fun t => t.completedBy.contains "U").length
        + (demoNote [demoTask "A" none 0 ["U"], demoTask "B" none 1 [],
            demoTask "C" none 2 [], demoTask "D" none 3 []]).tasks.length) ∧
    (calculateNoteProgress (demoNote [demoTask "A" none 0 ["U"], demoTask "B" none 1 [],
        demoTask "C" none 2 [], demoTask "D" none 3 []]) "U").percentage = 25 ∧
    (calculateNoteProgress (demoNote []) "U").percentage = 0 := by
  have h := progress_percentage_is_rounded_ratio.1
    (demoNote [demoTask "A" none 0 ["U"], demoTask "B" none 1 [],
      demoTask "C" none 2 [], demoTask "D" none 3 []]) "U"
  have h0 := progress_percentage_is_rounded_ratio.1 (demoNote []) "U"
  exact ⟨(h.2 (by decide)).1, by decide, h0.1 rfl⟩

/-- C6: the group-average percentage of a shared notebook is 0 when the
notebook has no tasks or no members, and otherwise is
round(100 * totalCompletions / (taskCount * memberCount)) with
Math.round's half-up tie rule, where totalCompletions sums the completion
entries of all the notebook's tasks. -/
theorem group_average_is_rounded_completion_ratio :
    ∀ (nb : Notebook),
      ((nb.notes.flatMap Note.tasks).length = 0 ∨ nb.memberCount = 0 →
        (calculateGroupAverage nb).percentage = 0) ∧
      (0 < (nb.notes.flatMap Note.tasks).length → 0 < nb.memberCount →
        2 * ((nb.notes.flatMap Note.tasks).length * nb.memberCount)
            * (calculateGroupAverage nb).percentage
          ≤ 200 * ((nb.notes.flatMap Note.tasks).foldl
                (fun sum t => sum + t.completedBy.length) 0)
            + (nb.notes.flatMap Note.tasks).length * nb.memberCount ∧
        200 * ((nb.notes.flatMap Note.tasks).foldl
                (fun sum t => sum + t.completedBy.length) 0)
            + (nb.notes.flatMap Note.tasks).length * nb.memberCount
          < 2 * ((nb.notes.flatMap Note.tasks).length * nb.memberCount)
              * ((calculateGroupAverage nb).percentage + 1)) := by
  intro nb
  constructor
  · intro h0
    rw [calculateGroupAverage]
    rcases h0 with h0 | h0 <;> simp [h0]
  · intro hpos hmc
    have hne : ¬((((nb.notes.flatMap Note.tasks).length == 0)
        || (nb.memberCount == 0)) = true) := by
      intro hcontra
      rw [Bool.or_eq_true] at hcontra
      rcases hcontra with h | h
      · exact Nat.pos_iff_ne_zero.mp hpos (Nat.beq_eq_true_eq _ _ ▸ h)
      · exact Nat.pos_iff_ne_zero.mp hmc (Nat.beq_eq_true_eq _ _ ▸ h)
    have hp : (calculateGroupAverage nb).percentage
        = roundPct ((nb.notes.flatMap Note.tasks).foldl
              (fun sum t => sum + t.completedBy.length) 0)
            ((nb.notes.flatMap Note.tasks).length * nb.memberCount) := by
      rw [calculateGroupAverage, if_neg hne]
    rw [hp]
    exact roundPct_bounds _ _ (Nat.mul_pos hpos hmc)

/-- C6 witness: a shared notebook with 2 tasks, 2 members and a single
completion entry yields round(100 * 1 / 4) = 25 percent. -/
theorem group_average_is_rounded_completion_ratio_witness :
    (calculateGroupAverage (demoNotebook
        [demoNote [demoTask "A" none 0 ["U"], demoTask "B" none 1 []]] 2)).percentage = 25 ∧
    2 * (((demoNotebook [demoNote [demoTask "A" none 0 ["U"], demoTask "B" none 1 []]] 2).notes.flatMap
          Note.tasks).length
        * (demoNotebook [demoNote [demoTask "A" none 0 ["U"], demoTask "B" none 1 []]] 2).memberCount)
      * (calculateGroupAverage (demoNotebook
          [demoNote [demoTask "A" none 0 ["U"], demoTask "B" none 1 []]] 2)).percentage
      ≤ 200 * (((demoNotebook [demoNote [demoTask "A" none 0 ["U"], demoTask "B" none 1 []]] 2).notes.flatMap
            Note.tasks).foldl (fun sum t => sum + t.completedBy.length) 0)
        + ((demoNotebook [demoNote [demoTask "A" none 0 ["U"], demoTask "B" none 1 []]] 2).notes.flatMap
            Note.tasks).length
          * (demoNotebook [demoNote [demoTask "A" none 0 ["U"], demoTask "B" none 1 []]] 2).memberCount := by
  have h := group_average_is_rounded_completion_ratio
    (demoNotebook [demoNote [demoTask "A" none 0 ["U"], demoTask "B" none 1 []]] 2)
  exact ⟨by decide, (h.2 (by decide) (by decide)).1⟩

/-- C7: the optimistic apply of `moveTaskToFolderMutation` (and its
durable write, a single-column update) patches only the moved task's
`folder_id`: the moved task keeps its `order_index` and every other
field, tasks with a different id are untouched, and every notebook- and
note-level field (including each note's task count and folder list) is
unchanged, so no renumbering of the destination container happens as part
of the move itself. -/
theorem move_task_updates_only_folder_id :
    ∀ (nbs : List Notebook) (tid : String) (fid : Option String),
      (∀ t : Task,
        (moveTaskUpdate tid fid t).id = t.id ∧
        (moveTaskUpdate tid fid t).title = t.title ∧
        (moveTaskUpdate tid fid t).note_id = t.note_id ∧
        (moveTaskUpdate tid fid t).order_index = t.order_index ∧
        (moveTaskUpdate tid fid t).created_at = t.created_at ∧
        (moveTaskUpdate tid fid t).completedBy = t.completedBy ∧
        (moveTaskUpdate tid fid t).completions = t.completions) ∧
      (∀ t : Task, t.id ≠ tid → moveTaskUpdate tid fid t = t) ∧
      (∀ t : Task, t.id = tid → moveTaskUpdate tid fid t = { t with folder_id := fid }) ∧
      (∀ (i j k : Nat),
        ((applyMoveTaskToFolder nbs tid fid)[i]?.bind fun nb =>
            nb.notes[j]?.bind fun n => n.tasks[k]?)
          = (nbs[i]?.bind fun nb => nb.notes[j]?.bind fun n => n.tasks[k]?).map
              (moveTaskUpdate tid fid)) ∧
      (∀ i : Nat,
        ((applyMoveTaskToFolder nbs tid fid)[i]?.map fun nb =>
            (nb.id, nb.title, nb.owner_id, nb.is_shared, nb.share_code, nb.order_index,
              nb.created_at, nb.memberCount, nb.userRole, nb.notes.length))
          = (nbs[i]?.map fun nb =>
              (nb.id, nb.title, nb.owner_id, nb.is_shared, nb.share_code, nb.order_index,
                nb.created_at, nb.memberCount, nb.userRole, nb.notes.length))) ∧
      (∀ (i j : Nat),
        ((applyMoveTaskToFolder nbs tid fid)[i]?.bind fun nb => nb.notes[j]?.map fun n =>
            (n.id, n.title, n.notebook_id, n.order_index, n.created_at, n.folders,
              n.tasks.length))
          = (nbs[i]?.bind fun nb => nb.notes[j]?.map fun n =>
              (n.id, n.title, n.notebook_id, n.order_index, n.created_at, n.folders,
                n.tasks.length))) := by
  intro nbs tid fid
  refine ⟨?_, ?_, ?_, ?_, ?_, ?_⟩
  · intro t
    by_cases h : (t.id == tid) = true
    · rw [moveTaskUpdate, if_pos h]
      exact ⟨rfl, rfl, rfl, rfl, rfl, rfl, rfl⟩
    · rw [moveTaskUpdate, if_neg h]
      exact ⟨rfl, rfl, rfl, rfl, rfl, rfl, rfl⟩
  · intro t h
    rw [moveTaskUpdate, if_neg (by simpa using h)]
  · intro t h
    rw [moveTaskUpdate, if_pos (by simpa using h)]
  · intro i j k
    simp only [applyMoveTaskToFolder, List.getElem?_map]
    cases hnb : nbs[i]? with
    | none => rfl
    | some nb =>
      cases hn : nb.notes[j]? with
      | none => simp [List.getElem?_map, hn]
      | some n =>
        cases ht : n.tasks[k]? with
        | none => simp [List.getElem?_map, hn, ht]
        | some t => simp [List.getElem?_map, hn, ht]
  · intro i
    simp only [applyMoveTaskToFolder, List.getElem?_map]
    cases hnb : nbs[i]? with
    | none => rfl
    | some nb => simp
  · intro i j
    simp only [applyMoveTaskToFolder, List.getElem?_map]
    cases hnb : nbs[i]? with
    | none => rfl
    | some nb =>
      cases hn : nb.notes[j]? with
      | none => simp [List.getElem?_map, hn]
      | some n => simp [List.getElem?_map, hn]

/-- C7 witness: moving task t1 into folder f leaves the other task
untouched and preserves t1's own order_index. -/
theorem move_task_updates_only_folder_id_witness :
    moveTaskUpdate "t1" (some "f") (demoTask "t2" (some "f") 1 [])
      = demoTask "t2" (some "f") 1 [] ∧
    (moveTaskUpdate "t1" (some "f") (demoTask "t1" none 0 [])).order_index
      = (demoTask "t1" none 0 []).order_index := by
  have h := move_task_updates_only_folder_id
    [demoNotebook [demoNote [demoTask "t1" none 0 [], demoTask "t2" (some "f") 1 []]] 1]
    "t1" (some "f")
  exact ⟨h.2.1 (demoTask "t2" (some "f") 1 []) (by decide),
    (h.1 (demoTask "t1" none 0 [])).2.2.2.1⟩

/-- C8: `handleJoin` aborts without touching `notebook_members`, with a
distinct user-facing message per cause, when the share code matches no
notebook, when the matched notebook is not shared, or when the user is
already a member; only when all three checks pass does it insert a single
membership row with role reader. -/
theorem join_by_share_code_guards :
    ∀ (db : JoinDb) (uid code rid : String),
      (db.notebooks.find? (fun nb => nb.share_code == some (jsToUpper (jsTrim code))) = none →
        handleJoin db uid code rid = (db, JoinResult.error "Invalid share code")) ∧
      (∀ nb, db.notebooks.find? (fun nb => nb.share_code == some (jsToUpper (jsTrim code))) = some nb →
        nb.is_shared = false →
        handleJoin db uid code rid = (db, JoinResult.error "This notebook is not shared")) ∧
      (∀ nb m,
        db.notebooks.find? (fun nb => nb.share_code == some (jsToUpper (jsTrim code))) = some nb →
        nb.is_shared = true →
        db.members.find? (fun m => m.notebook_id == nb.id && m.user_id == uid) = some m →
        handleJoin db uid code rid
          = (db, JoinResult.error "You are already a member of this notebook")) ∧
      (∀ nb,
        db.notebooks.find? (fun nb => nb.share_code == some (jsToUpper (jsTrim code))) = some nb →
        nb.is_shared = true →
        db.members.find? (fun m => m.notebook_id == nb.id && m.user_id == uid) = none →
        handleJoin db uid code rid
          = ({ db with members := db.members ++ [⟨rid, nb.id, uid, "reader"⟩] },
             JoinResult.joined nb.title)) ∧
      (JoinResult.error "Invalid share code" ≠ JoinResult.error "This notebook is not shared" ∧
       JoinResult.error "Invalid share code"
         ≠ JoinResult.error "You are already a member of this notebook" ∧
       JoinResult.error "This notebook is not shared"
         ≠ JoinResult.error "You are already a member of this notebook") := by
  intro db uid code rid
  refine ⟨?_, ?_, ?_, ?_, by decide, by decide, by decide⟩
  · intro h
    simp only [handleJoin, h]
  · intro nb h h2
    simp only [handleJoin, h, h2]
    rfl
  · intro nb m h h2 h3
    simp only [handleJoin, h, h2, h3]
    rfl
  · intro nb h h2 h3
    simp only [handleJoin, h, h2, h3]
    rfl

/-- C8 witness: with one shared notebook carrying code ABCD2345 and no
members, joining with code abcd2345 inserts exactly one reader row. -/
theorem join_by_share_code_guards_witness :
    handleJoin ⟨[⟨"nb1", "Trip", "owner1", true, some "ABCD2345"⟩], []⟩
        "u2" "abcd2345" "m1"
      = (⟨[⟨"nb1", "Trip", "owner1", true, some "ABCD2345"⟩],
          [⟨"m1", "nb1", "u2", "reader"⟩]⟩,
         JoinResult.joined "Trip") := by
  have h := (join_by_share_code_guards
    ⟨[⟨"nb1", "Trip", "owner1", true, some "ABCD2345"⟩], []⟩
    "u2" "abcd2345" "m1").2.2.2.1
    ⟨"nb1", "Trip", "owner1", true, some "ABCD2345"⟩
    (by decide) rfl (by decide)
  exact h

/-! ### Helper lemmas about foldl max -/

theorem jsOrZero_eq_self (i : Int) : jsOrZero i = i := by
  rw [jsOrZero]
  by_cases h : (i == 0) = true
  · rw [if_pos h]
    exact (by simpa using h : i = 0).symm
  · rw [if_neg h]

theorem le_foldl_max (a : Int) (xs : List Int) : a ≤ xs.foldl max a := by
  induction xs generalizing a with
  | nil => exact le_refl a
  | cons x xs ih => exact le_trans (le_max_left a x) (ih (max a x))

theorem mem_le_foldl_max (xs : List Int) (a : Int) : ∀ x ∈ xs, x ≤ xs.foldl max a := by
  induction xs generalizing a with
  | nil => intro x hx; simp at hx
  | cons y ys ih =>
    intro x hx
    rcases List.mem_cons.mp hx with h | h
    · subst h
      exact le_trans (le_max_right a x) (le_foldl_max (max a x) ys)
    · exact ih (max a y) x h

theorem foldl_max_mem (xs : List Int) (a : Int) :
    xs.foldl max a = a ∨ xs.foldl max a ∈ xs := by
  induction xs generalizing a with
  | nil => exact Or.inl rfl
  | cons y ys ih =>
    rcases ih (max a y) with h | h
    · rcases max_choice a y with hm | hm
      · exact Or.inl (by rw [List.foldl_cons, h, hm])
      · exact Or.inr (by rw [List.foldl_cons, h, hm]; exact List.mem_cons_self y ys)
    · exact Or.inr (List.mem_cons_of_mem y h)

/-- C9: `addTask` gives the new task order_index 0 when its container
(the note's root list when folderId is null, else the folder's list) is
empty, and one plus the container's maximum order_index otherwise
(strictly above every member, and exactly one plus the index of some
member); the local update appends the returned record to the matching
note's task list and leaves every other note and notebook unchanged. -/
theorem add_task_max_plus_one_and_appends :
    ∀ (note : Note) (fid : Option String),
      (containerTasks note fid = [] → addTaskOrderIndex note fid = 0) ∧
      (containerTasks note fid ≠ [] →
        (∀ t ∈ containerTasks note fid, t.order_index < addTaskOrderIndex note fid) ∧
        (∃ t ∈ containerTasks note fid, addTaskOrderIndex note fid = t.order_index + 1)) ∧
      (∀ (n : Note) (noteId : String) (newTask : Task),
        (n.id = noteId →
          (addTaskToNote noteId newTask n).tasks = n.tasks ++ [newTask] ∧
          (addTaskToNote noteId newTask n).id = n.id ∧
          (addTaskToNote noteId newTask n).title = n.title ∧
          (addTaskToNote noteId newTask n).folders = n.folders) ∧
        (n.id ≠ noteId → addTaskToNote noteId newTask n = n)) ∧
      (∀ (nb : Notebook) (nbId noteId : String) (newTask : Task),
        nb.id ≠ nbId → addTaskToNotebook nbId noteId newTask nb = nb) := by
  intro note fid
  refine ⟨?_, ?_, ?_, ?_⟩
  · intro h
    rw [addTaskOrderIndex]
    simp [h]
  · intro h
    have hpos : 0 < (containerTasks note fid).length := List.length_pos.mpr h
    have hmap : ((containerTasks note fid).map fun t => jsOrZero t.order_index)
        = (containerTasks note fid).map fun t => t.order_index :=
      List.map_congr_left fun t _ => jsOrZero_eq_self t.order_index
    have hidx : addTaskOrderIndex note fid
        = maxOrderFold ((containerTasks note fid).map fun t => t.order_index) + 1 := by
      rw [addTaskOrderIndex, if_pos hpos, hmap]
    obtain ⟨t0, rest, hts⟩ : ∃ t0 rest, containerTasks note fid = t0 :: rest := by
      cases hcc : containerTasks note fid with
      | nil => exact absurd hcc h
      | cons a b => exact ⟨a, b, rfl⟩
    constructor
    · intro t ht
      rw [hidx, hts]
      rw [hts] at ht
      have hle : t.order_index
          ≤ maxOrderFold ((t0 :: rest).map fun t => t.order_index) := by
        rw [List.map_cons]
        simp only [maxOrderFold]
        rcases List.mem_cons.mp ht with h1 | h1
        · subst h1
          exact le_foldl_max _ _
        · exact mem_le_foldl_max _ _ _ (List.mem_map_of_mem _ h1)
      rw [List.map_cons] at hle ⊢
      omega
    · rw [hidx, hts, List.map_cons]
      simp only [maxOrderFold]
      rcases foldl_max_mem (rest.map fun t => t.order_index) t0.order_index with h1 | h1
      · exact ⟨t0, List.mem_cons_self t0 rest, by rw [h1]⟩
      · obtain ⟨t, htmem, hteq⟩ := List.mem_map.mp h1
        exact ⟨t, List.mem_cons_of_mem _ htmem, by rw [hteq]⟩
  · intro n noteId newTask
    constructor
    · intro hid
      rw [addTaskToNote, if_pos (by simpa using hid)]
      exact ⟨rfl, rfl, rfl, rfl⟩
    · intro hid
      rw [addTaskToNote, if_neg (by simpa using hid)]
  · intro nb nbId noteId newTask hid
    rw [addTaskToNotebook, if_neg (by simpa using hid)]

/-- C9 witness: in a root container with order indices 5 and 2 the new
index exceeds 5; in an empty container it is 0; the matching note gets
the new task appended. -/
theorem add_task_max_plus_one_and_appends_witness :
    (demoTask "A" none 5 []).order_index
        < addTaskOrderIndex (demoNote [demoTask "A" none 5 [], demoTask "B" none 2 []]) none ∧
    addTaskOrderIndex (demoNote []) none = 0 ∧
    (addTaskToNote "n1" (demoTask "C" none 6 []) (demoNote [])).tasks
        = (demoNote []).tasks ++ [demoTask "C" none 6 []] := by
  have h1 := add_task_max_plus_one_and_appends
    (demoNote [demoTask "A" none 5 [], demoTask "B" none 2 []]) none
  have h2 := add_task_max_plus_one_and_appends (demoNote []) none
  exact ⟨(h1.2.1 (by decide)).1 (demoTask "A" none 5 []) (by decide),
    h2.1 (by decide),
    ((h2.2.2.1 (demoNote []) "n1" (demoTask "C" none 6 [])).1 rfl).1⟩

/-- C10: the `memberCount` reported by `fetchNotebooks` is the number of
`notebook_members` rows of the notebook plus one (added unconditionally
for the owner); a further row for the same notebook always raises the
count by one, also when that row belongs to the owner, so an owner listed
as an explicit member is counted twice. -/
theorem member_count_is_rows_plus_one :
    ∀ (members : List MemberRow) (nbId : String),
      fetchMemberCount members nbId
        = (members.filter fun m => m.notebook_id == nbId).length + 1 ∧
      (∀ m : MemberRow, m.notebook_id = nbId →
        fetchMemberCount (m :: members) nbId = fetchMemberCount members nbId + 1) := by
  intro members nbId
  refine ⟨rfl, ?_⟩
  intro m hm
  rw [fetchMemberCount, fetchMemberCount, List.filter_cons, if_pos (by simpa using hm)]
  simp

/-- C10 witness: an explicit member row for the owner still raises the
count, so a notebook whose owner also has a member row reports 2. -/
theorem member_count_is_rows_plus_one_witness :
    fetchMemberCount [⟨"m1", "nb1", "owner1", "owner"⟩] "nb1"
      = fetchMemberCount [] "nb1" + 1 := by
  exact (member_count_is_rows_plus_one [] "nb1").2 ⟨"m1", "nb1", "owner1", "owner"⟩ rfl
